import Mathlib

/-!
# Verification of the plex-proxy routing/caching core

A shallow embedding of the Rust sources `src/proxy.rs`, `src/plex.rs` and the
route registration in `make_proxy`, together with theorems settling the frozen
claims about the program.

Modelling conventions:
* Machine time (`std::time::Instant`) is modelled as a `Nat` counting whole
  seconds; `v.elapsed()` at current time `now` for an entry stored at `t`
  becomes `now - t` (truncated `Nat` subtraction; an `Instant` is never in the
  future, so this agrees with the code).
* The two `HashMap`s behind `RwLock`s are modelled as association lists with
  last-write-wins insertion; handlers are explicit state transformers
  (`ProxyState → ... → ProxyState × result`).
* HTTP bodies relevant to parsing are modelled as either a well-formed JSON
  value or raw (non-JSON) bytes; `serde_json::from_slice` becomes the
  composition of that distinction with the derived deserializers of
  `plex.rs`, which are embedded field by field (missing field is an error,
  unknown fields are ignored, a type mismatch is an error).
* Header names are taken already lower-cased (the axum `HeaderMap` normalises
  names), and header values are valid strings.
* Network sends are external: the outward call of a handler is returned as data
  (`RouteAction`), and the answer of the origin in the capture handler is an input.
-/

namespace PlexProxy

/-- `TOKEN_TTL_MINUTES` from proxy.rs line 9. -/
def TOKEN_TTL_MINUTES : Nat := 15

/-- The 1 MiB cap passed to `body::to_bytes` in proxy.rs line 139. -/
def BODY_CAP : Nat := 1048576

/-- A JSON value, the target of the text-level parse in `serde_json`. -/
inductive Json where
  | null : Json
  | bool (b : Bool) : Json
  | num (n : Int) : Json
  | str (s : String) : Json
  | arr (elems : List Json) : Json
  | obj (fields : List (String × Json)) : Json

/-- `Part` from plex.rs lines 3-7: fields `key` and `file`. -/
structure Part where
  key : String
  file : String
deriving DecidableEq, Repr

/-- `Media` from plex.rs lines 9-13: field `parts`, serde-renamed "Part". -/
structure Media where
  parts : List Part
deriving DecidableEq, Repr

/-- `Metadata` from plex.rs lines 15-19: field `media`, serde-renamed "Media". -/
structure Metadata where
  media : List Media
deriving DecidableEq, Repr

/-- `MediaContainer` from plex.rs lines 21-25: field `metadata`,
serde-renamed "Metadata". -/
structure MediaContainer where
  metadata : List Metadata
deriving DecidableEq, Repr

/-- `Container` from plex.rs lines 27-31: field `media_container`,
serde-renamed "MediaContainer". -/
structure Container where
  media_container : MediaContainer
deriving DecidableEq, Repr

/-- serde: look a field up in a JSON object; a missing field is an error
(none of the structs in plex.rs carries `#[serde(default)]`). -/
def getField (fields : List (String × Json)) (name : String) : Except String Json :=
  match fields.find? (fun f => f.1 = name) with
  | some f => .ok f.2
  | none => .error ("missing field " ++ name)

/-- serde: a `String` field must be a JSON string. -/
def asString : Json → Except String String
  | .str s => .ok s
  | _ => .error "invalid type: expected a string"

/-- serde: a `Vec` field must be a JSON array. -/
def asArr : Json → Except String (List Json)
  | .arr xs => .ok xs
  | _ => .error "invalid type: expected a sequence"

/-- Derived `Deserialize` for `Part`: an object with string fields
`key` and `file`; unknown fields ignored. -/
def decodePart : Json → Except String Part
  | .obj fields => do
      let k ← asString (← getField fields "key")
      let f ← asString (← getField fields "file")
      .ok ⟨k, f⟩
  | _ => .error "invalid type: expected struct Part"

/-- Derived `Deserialize` for `Media`: an object whose field "Part" is an
array of `Part`s. -/
def decodeMedia : Json → Except String Media
  | .obj fields => do
      let xs ← asArr (← getField fields "Part")
      let ps ← xs.mapM decodePart
      .ok ⟨ps⟩
  | _ => .error "invalid type: expected struct Media"

/-- Derived `Deserialize` for `Metadata`: an object whose field "Media" is an
array of `Media`s. -/
def decodeMetadata : Json → Except String Metadata
  | .obj fields => do
      let xs ← asArr (← getField fields "Media")
      let ms ← xs.mapM decodeMedia
      .ok ⟨ms⟩
  | _ => .error "invalid type: expected struct Metadata"

/-- Derived `Deserialize` for `MediaContainer`: an object whose field
"Metadata" is an array of `Metadata`s. -/
def decodeMediaContainer : Json → Except String MediaContainer
  | .obj fields => do
      let xs ← asArr (← getField fields "Metadata")
      let ms ← xs.mapM decodeMetadata
      .ok ⟨ms⟩
  | _ => .error "invalid type: expected struct MediaContainer"

/-- Derived `Deserialize` for `Container`: an object whose field
"MediaContainer" holds a `MediaContainer`. -/
def decodeContainer : Json → Except String Container
  | .obj fields => do
      let mc ← decodeMediaContainer (← getField fields "MediaContainer")
      .ok ⟨mc⟩
  | _ => .error "invalid type: expected struct Container"

/-- A buffered HTTP body: either bytes that parse as JSON text, carried as
their JSON value, or bytes that are not well-formed JSON. -/
inductive Body where
  | json (j : Json) : Body
  | raw (bytes : List Nat) : Body

/-- `serde_json::from_slice::<Container>`: fails on non-JSON bytes
(syntax error) or on a shape mismatch; otherwise the derived decode. -/
def fromSlice : Body → Except String Container
  | .json j => decodeContainer j
  | .raw _ => .error "expected value"

/-- All (key, file) pairs of a parsed container, in the order the nested
iterator of proxy.rs lines 144-147 yields them. -/
def containerParts (c : Container) : List (String × String) :=
  c.media_container.metadata.flatMap (fun md =>
    md.media.flatMap (fun m => m.parts.map (fun p => (p.key, p.file))))

/-- `HashMap::insert`: at most one live entry per key, last write wins. -/
def mapInsert (k v : String) (m : List (String × String)) : List (String × String) :=
  (k, v) :: m.filter (fun e => e.1 ≠ k)

/-- `HashMap::get`: exact-match lookup. -/
def mapGet (k : String) (m : List (String × String)) : Option String :=
  (m.find? (fun e => e.1 = k)).map (fun e => e.2)

/-- `HashMap::insert` on the token map (value is the store time). -/
def tokenInsert (tok : String) (now : Nat) (m : List (String × Nat)) : List (String × Nat) :=
  (tok, now) :: m.filter (fun e => e.1 ≠ tok)

/-- `HashMap::contains_key` on the token map (proxy.rs line 106). -/
def containsToken (m : List (String × Nat)) (tok : String) : Bool :=
  m.any (fun e => e.1 = tok)

/-- `ProxyState` from proxy.rs lines 11-18; the two maps are association
lists, the three configuration strings are immutable. -/
structure ProxyState where
  seenTokens : List (String × Nat)
  mediaMap : List (String × String)
  plexUrl : String
  plexLibraryPath : String
  rcloneUrl : String

/-- `ProxyState::add_token` (proxy.rs lines 21-32): insert the token at the
current time, then remove every entry whose elapsed seconds exceed
`TOKEN_TTL_MINUTES * 60`. -/
def addToken (now : Nat) (tok : String) (m : List (String × Nat)) : List (String × Nat) :=
  (tokenInsert tok now m).filter (fun e => ¬ now - e.2 > TOKEN_TTL_MINUTES * 60)

/-- `ProxyState::add_media` (proxy.rs lines 34-37): unconditional upsert. -/
def addMedia (key file : String) (s : ProxyState) : ProxyState :=
  { s with mediaMap := mapInsert key file s.mediaMap }

/-- An inbound request: method, path, query, headers. Header names are
lower-cased; the body is only ever forwarded as a stream, so it needs no
representation here. -/
structure Request where
  method : String
  path : String
  query : Option String
  headers : List (String × String)

/-- `HeaderMap::get(name)` followed by `to_str().ok()`. -/
def getHeader (headers : List (String × String)) (name : String) : Option String :=
  (headers.find? (fun h => h.1 = name)).map (fun h => h.2)

/-- The outward network call a handler makes, returned as data.
`toPlex` is the send built by `pass_to_plex` (proxy.rs lines 59-70): the
plex base URL with the path and query of the request set, the method
and headers, and the request body wrapped as a stream.
`toRclone` is the send built by `pass_to_rclone` (proxy.rs lines 84-87):
`client().get(url)` — method GET, no headers added, no body. -/
inductive RouteAction where
  | toPlex (base : String) (method : String) (path : String) (query : Option String)
      (headers : List (String × String)) (streamBody : Bool) : RouteAction
  | toRclone (url : String) (method : String) (headers : List (String × String))
      (hasBody : Bool) : RouteAction

/-- The call `pass_to_plex` makes for a request (proxy.rs lines 59-70). -/
def passToPlexCall (s : ProxyState) (req : Request) : RouteAction :=
  .toPlex s.plexUrl req.method req.path req.query req.headers true

/-- The call `pass_to_rclone` makes for a URL (proxy.rs lines 81-97). -/
def passToRcloneCall (url : String) : RouteAction :=
  .toRclone url "GET" [] false

/-- Remove `p` from the front of `s`, character by character. -/
def dropPrefixList : List Char → List Char → Option (List Char)
  | xs, [] => some xs
  | [], _ :: _ => none
  | x :: xs, y :: ys => if x = y then dropPrefixList xs ys else none

/-- Rust `str::strip_prefix`: `some` of the remainder when `p` is a prefix
of `s`, else `none`. -/
def stripPrefixOpt (s p : String) : Option String :=
  (dropPrefixList s.data p.data).map (fun r => ⟨r⟩)

/-- Rust `str::trim_end_matches('/')`: drop every trailing slash. -/
def trimEndSlashes (s : String) : String :=
  ⟨(s.data.reverse.dropWhile (fun c => c = '/')).reverse⟩

/-- Rust `str::trim_start_matches('/')`: drop every leading slash. -/
def trimStartSlashes (s : String) : String :=
  ⟨s.data.dropWhile (fun c => c = '/')⟩

/-- The `fallback` handler (proxy.rs lines 99-125) as the network call it
decides on. It reads `seen_tokens` and `media_map` and never writes either;
every branch other than the successful rclone redirect ends in
`pass_to_plex` at line 124. -/
def fallbackRoute (s : ProxyState) (req : Request) : RouteAction :=
  match getHeader req.headers "x-plex-token" with
  | some token =>
    if containsToken s.seenTokens token then
      match mapGet req.path s.mediaMap with
      | some file =>
        match stripPrefixOpt file s.plexLibraryPath with
        | some rest =>
          passToRcloneCall (trimEndSlashes s.rcloneUrl ++ "/" ++ trimStartSlashes rest)
        | none => passToPlexCall s req
      | none => passToPlexCall s req
    else passToPlexCall s req
  | none => passToPlexCall s req

/-- The answer of the origin to the forwarded capture request: status, headers,
body (as buffered content would read), and the byte length of the body
stream, against which the 1 MiB cap is checked. -/
structure OriginResponse where
  status : Nat
  headers : List (String × String)
  body : Body
  bodyLen : Nat

/-- A response the handler gives the client. `fromStream = true` when the
body is `Body::from_stream` (streamed through), `false` when it is
`Body::from(data)` (rebuilt from buffered bytes). -/
structure HttpResponse where
  status : Nat
  headers : List (String × String)
  body : Body
  fromStream : Bool

/-- What the capture handler returns: a response, or an early HTTP error
`(status, text)` as produced by the `?` operators in proxy.rs. -/
inductive CaptureResult where
  | ok (resp : HttpResponse) : CaptureResult
  | err (status : Nat) (text : String) : CaptureResult

/-- The `capture_metadata` handler (proxy.rs lines 127-167) after the origin
answered `resp`: on a 200, first register the token of the request if any
(lines 131-134), then buffer the body under the 1 MiB cap (`?` on failure,
lines 139-140), then on a successful parse upsert every (key, file) part
(lines 142-151) — a parse error is only logged — and finally rebuild the
response from the saved status, headers and buffered bytes (lines 157-163).
On a non-200 the origin response is returned as-is, still streaming. -/
def captureMetadata (now : Nat) (s : ProxyState) (req : Request)
    (resp : OriginResponse) : ProxyState × CaptureResult :=
  if resp.status = 200 then
    let s1 : ProxyState :=
      match getHeader req.headers "x-plex-token" with
      | some tok => { s with seenTokens := addToken now tok s.seenTokens }
      | none => s
    if resp.bodyLen ≤ BODY_CAP then
      let s2 : ProxyState :=
        match fromSlice resp.body with
        | .ok container =>
          (containerParts container).foldl (fun st kf => addMedia kf.1 kf.2 st) s1
        | .error _ => s1
      (s2, .ok ⟨resp.status, resp.headers, resp.body, false⟩)
    else
      (s1, .err 502 "Failed to read response body")
  else
    (s, .ok ⟨resp.status, resp.headers, resp.body, true⟩)

/-- Where the router sends a request. -/
inductive Dispatch where
  | capture : Dispatch
  | methodNotAllowed : Dispatch
  | fallback : Dispatch
deriving DecidableEq, Repr

/-- Split a character list on `'/'`, like `String.splitOn "/"`. -/
def splitSlashes : List Char → List (List Char)
  | [] => [[]]
  | c :: rest =>
    match splitSlashes rest with
    | [] => [[]]
    | r :: rs => if c = '/' then [] :: r :: rs else (c :: r) :: rs

/-- Does a path match the registered route pattern
`/library/metadata/:id/children`? The `:id` parameter matches exactly one
non-empty segment. -/
def matchesCaptureRoute (path : String) : Bool :=
  match splitSlashes path.data with
  | [[], s1, s2, id, s3] =>
    s1 = "library".data && s2 = "metadata".data && s3 = "children".data && id ≠ []
  | _ => false

/-- The router built by `make_proxy` (proxy.rs lines 181-184), under axum
`Router` semantics: `.route("/library/metadata/:id/children",
get(capture_metadata))` serves GET — and HEAD, which the axum `get` also
routes to the handler — on matching paths; a request whose path matches but
whose method does not is answered by the default method-router
405 Method Not Allowed, not by the fallback; `.fallback(fallback)` receives
every request whose path matches no route. -/
def dispatch (req : Request) : Dispatch :=
  if matchesCaptureRoute req.path then
    if req.method = "GET" ∨ req.method = "HEAD" then .capture
    else .methodNotAllowed
  else .fallback

/-- The outcome of one dispatched request, at the granularity the claims
need: the state change and result of the capture handler, a 405, or the
network call of the fallback (which changes no state). -/
inductive Outcome where
  | captured (result : CaptureResult) : Outcome
  | methodNotAllowed : Outcome
  | routed (action : RouteAction) : Outcome

/-- One request through the router: the capture route runs
`capture_metadata` against the answer of the origin, a method mismatch on that
route is a 405, and everything else runs `fallback`. -/
def requestStep (now : Nat) (s : ProxyState) (req : Request)
    (resp : OriginResponse) : ProxyState × Outcome :=
  match dispatch req with
  | .capture =>
    let (s2, r) := captureMetadata now s req resp
    (s2, .captured r)
  | .methodNotAllowed => (s, .methodNotAllowed)
  | .fallback => (s, .routed (fallbackRoute s req))

/-! ## Theorems settling the claims -/

/-- A token just added always survives the TTL sweep of the same `add_token`
call: its age at that moment is zero. -/
theorem containsToken_addToken_self (now : Nat) (tok : String) (m : List (String × Nat)) :
    containsToken (addToken now tok m) tok = true := by
  unfold containsToken addToken tokenInsert
  rw [List.any_eq_true]
  refine ⟨(tok, now), ?_, by simp⟩
  rw [List.mem_filter]
  exact ⟨List.mem_cons_self _ _, by simp⟩

/-- C1: a fallback request whose token header is absent, or whose token is
not in the token cache, is proxied unchanged to the origin — same method,
path, query, headers, and streamed body — and is never redirected to the
gateway. -/
theorem fallback_unknown_token_proxies_origin (s : ProxyState) (req : Request)
    (h : getHeader req.headers "x-plex-token" = none ∨
      ∃ tok, getHeader req.headers "x-plex-token" = some tok ∧
        containsToken s.seenTokens tok = false) :
    fallbackRoute s req =
      RouteAction.toPlex s.plexUrl req.method req.path req.query req.headers true ∧
    ∀ url m hs b, fallbackRoute s req ≠ RouteAction.toRclone url m hs b := by
  have heq : fallbackRoute s req = passToPlexCall s req := by
    unfold fallbackRoute
    rcases h with h | ⟨tok, h1, h2⟩
    · rw [h]
    · simp only [h1, h2]
      rfl
  refine ⟨heq, fun url m hs b hco => ?_⟩
  rw [heq] at hco
  exact RouteAction.noConfusion hco

/-- Witness for C1: the request of the spec example carries an unknown token
while the media index would match, and it still goes to the origin. -/
theorem fallback_unknown_token_proxies_origin_witness :
    fallbackRoute
      ⟨[("other", 0)], [("/library/metadata/1/part/1", "/data/movies/a.mkv")],
        "http://plex", "/data", "http://gw"⟩
      ⟨"GET", "/library/metadata/1/part/1", none, [("x-plex-token", "nope")]⟩ =
      RouteAction.toPlex "http://plex" "GET" "/library/metadata/1/part/1" none
        [("x-plex-token", "nope")] true :=
  (fallback_unknown_token_proxies_origin _ _
    (Or.inr ⟨"nope", by decide, by decide⟩)).1

/-- C2: a fallback request with a cached token whose path maps to a file
under the library root is answered by a plain GET — no extra headers, no
body — to the gateway base URL (trailing slashes trimmed) joined with a
slash to the file path with the library-root prefix and leading slashes
stripped. -/
theorem fallback_known_media_redirects_gateway (s : ProxyState) (req : Request)
    (tok file rest : String)
    (h1 : getHeader req.headers "x-plex-token" = some tok)
    (h2 : containsToken s.seenTokens tok = true)
    (h3 : mapGet req.path s.mediaMap = some file)
    (h4 : stripPrefixOpt file s.plexLibraryPath = some rest) :
    fallbackRoute s req =
      RouteAction.toRclone (trimEndSlashes s.rcloneUrl ++ "/" ++ trimStartSlashes rest)
        "GET" [] false := by
  unfold fallbackRoute
  simp only [h1, h2, h3, h4]
  rfl

/-- Witness for C2: the spec example — library root `/data`, captured file
`/data/movies/a.mkv`, gateway base `http://gw/` — redirects to
`http://gw/movies/a.mkv`. -/
theorem fallback_known_media_redirects_gateway_witness :
    fallbackRoute
      ⟨[("tok", 0)], [("/library/metadata/1/part/1", "/data/movies/a.mkv")],
        "http://plex", "/data", "http://gw/"⟩
      ⟨"GET", "/library/metadata/1/part/1", none, [("x-plex-token", "tok")]⟩ =
      RouteAction.toRclone "http://gw/movies/a.mkv" "GET" [] false :=
  fallback_known_media_redirects_gateway _ _ "tok" "/data/movies/a.mkv" "/movies/a.mkv"
    (by decide) (by decide) (by decide) (by decide)

/-- C3: when the indexed file does not begin with the configured library
root, the fallback never redirects to the gateway — even with a valid token
and a matching key — and proxies the request to the origin instead. -/
theorem fallback_unexpected_file_path_proxies_origin (s : ProxyState) (req : Request)
    (tok file : String)
    (h1 : getHeader req.headers "x-plex-token" = some tok)
    (h2 : containsToken s.seenTokens tok = true)
    (h3 : mapGet req.path s.mediaMap = some file)
    (h4 : stripPrefixOpt file s.plexLibraryPath = none) :
    fallbackRoute s req =
      RouteAction.toPlex s.plexUrl req.method req.path req.query req.headers true ∧
    ∀ url m hs b, fallbackRoute s req ≠ RouteAction.toRclone url m hs b := by
  have heq : fallbackRoute s req = passToPlexCall s req := by
    unfold fallbackRoute
    simp only [h1, h2, h3, h4]
    rfl
  refine ⟨heq, fun url m hs b hco => ?_⟩
  rw [heq] at hco
  exact RouteAction.noConfusion hco

/-- Witness for C3: a valid token and a matching key whose file `/mnt/a.mkv`
lies outside library root `/data` still proxy to the origin. -/
theorem fallback_unexpected_file_path_proxies_origin_witness :
    fallbackRoute ⟨[("tok", 0)], [("/k", "/mnt/a.mkv")], "http://plex", "/data", "http://gw"⟩
      ⟨"GET", "/k", none, [("x-plex-token", "tok")]⟩ =
      RouteAction.toPlex "http://plex" "GET" "/k" none [("x-plex-token", "tok")] true :=
  (fallback_unexpected_file_path_proxies_origin _ _ "tok" "/mnt/a.mkv"
    (by decide) (by decide) (by decide) (by decide)).1

/-- Counterexample to C4 as stated: the document
`\x7b"MediaContainer": \x7b\x7d\x7d`, whose nested metadata list is absent, does
not parse successfully with the list treated as empty — the derived
deserializer reports a missing field, because no struct in plex.rs carries
a serde default. -/
theorem absent_list_parse_counterexample :
    decodeContainer (Json.obj [("MediaContainer", Json.obj [])]) =
      Except.error "missing field Metadata" := rfl

/-- C4 (amended): a document in which any of the nested lists (metadata
entries, media entries, parts) is absent fails to parse — it is a
MetadataParseError, not an empty-list success — and any body whose parse
fails skips index population and still returns the unmodified bytes with
the original status and headers. -/
theorem absent_list_parse_error_amended :
    (∀ fields : List (String × Json), fields.find? (fun f => f.1 = "Metadata") = none →
      decodeMediaContainer (Json.obj fields) = Except.error "missing field Metadata") ∧
    (∀ fields : List (String × Json), fields.find? (fun f => f.1 = "Media") = none →
      decodeMetadata (Json.obj fields) = Except.error "missing field Media") ∧
    (∀ fields : List (String × Json), fields.find? (fun f => f.1 = "Part") = none →
      decodeMedia (Json.obj fields) = Except.error "missing field Part") ∧
    (∀ (now : Nat) (s : ProxyState) (req : Request) (resp : OriginResponse) (e : String),
      resp.status = 200 → resp.bodyLen ≤ BODY_CAP →
      fromSlice resp.body = Except.error e →
      (captureMetadata now s req resp).1.mediaMap = s.mediaMap ∧
      (captureMetadata now s req resp).2 =
        CaptureResult.ok ⟨resp.status, resp.headers, resp.body, false⟩) := by
  refine ⟨fun fields h => ?_, fun fields h => ?_, fun fields h => ?_,
    fun now s req resp e h1 h2 h3 => ?_⟩
  · simp only [decodeMediaContainer, getField, h]
    rfl
  · simp only [decodeMetadata, getField, h]
    rfl
  · simp only [decodeMedia, getField, h]
    rfl
  · unfold captureMetadata
    rw [if_pos h1, if_pos h2, h3]
    cases hg : getHeader req.headers "x-plex-token" <;> simp [hg]

/-- Witness for the amended C4: an empty object is missing its "Metadata"
list and errors, and pushing the missing-list document through the capture
handler leaves the media index empty while returning the exact body. -/
theorem absent_list_parse_error_amended_witness :
    decodeMediaContainer (Json.obj []) = Except.error "missing field Metadata" ∧
    (captureMetadata 0 ⟨[], [], "http://plex", "/data", "http://gw"⟩
      ⟨"GET", "/library/metadata/1/children", none, []⟩
      ⟨200, [], Body.json (Json.obj [("MediaContainer", Json.obj [])]), 22⟩).1.mediaMap = [] ∧
    (captureMetadata 0 ⟨[], [], "http://plex", "/data", "http://gw"⟩
      ⟨"GET", "/library/metadata/1/children", none, []⟩
      ⟨200, [], Body.json (Json.obj [("MediaContainer", Json.obj [])]), 22⟩).2 =
      CaptureResult.ok ⟨200, [], Body.json (Json.obj [("MediaContainer", Json.obj [])]), false⟩ := by
  have h := absent_list_parse_error_amended.2.2.2 0
    ⟨[], [], "http://plex", "/data", "http://gw"⟩
    ⟨"GET", "/library/metadata/1/children", none, []⟩
    ⟨200, [], Body.json (Json.obj [("MediaContainer", Json.obj [])]), 22⟩
    "missing field Metadata" rfl (by decide) rfl
  exact ⟨absent_list_parse_error_amended.1 [] rfl, h.1, h.2⟩

/-- C5: when the origin answers a capture request with status 200 and the
body fits the 1 MiB cap, the client receives the original status, the
original headers, and exactly the buffered body bytes — the same response
whether or not the body parses as a metadata document. -/
theorem capture_200_returns_origin_bytes (now : Nat) (s : ProxyState) (req : Request)
    (resp : OriginResponse) (h1 : resp.status = 200) (h2 : resp.bodyLen ≤ BODY_CAP) :
    (captureMetadata now s req resp).2 =
      CaptureResult.ok ⟨resp.status, resp.headers, resp.body, false⟩ := by
  unfold captureMetadata
  rw [if_pos h1, if_pos h2]

/-- Witness for C5: a 200 response whose body is not JSON at all is still
returned with its status, headers and exact bytes. -/
theorem capture_200_returns_origin_bytes_witness :
    (captureMetadata 0 ⟨[], [], "http://plex", "/data", "http://gw"⟩
      ⟨"GET", "/library/metadata/1/children", none, []⟩
      ⟨200, [("content-type", "text/plain")], Body.raw [104, 105], 2⟩).2 =
      CaptureResult.ok ⟨200, [("content-type", "text/plain")], Body.raw [104, 105], false⟩ :=
  capture_200_returns_origin_bytes 0 _ _ _ rfl (by decide)

/-- Counterexample to C6 as stated: a POST to the capture path
`/library/metadata/1/children` is answered by the method router with
405 Method Not Allowed — it reaches neither the MetadataInterceptor nor the
Router fallback policy, although the claim says every method/path
combination other than the distinguished route goes to the fallback. -/
theorem router_post_children_counterexample :
    dispatch ⟨"POST", "/library/metadata/1/children", none, []⟩ =
      Dispatch.methodNotAllowed ∧
    dispatch ⟨"POST", "/library/metadata/1/children", none, []⟩ ≠ Dispatch.fallback := by
  decide

/-- C6 (amended): the inbound surface accepts every method and path; GET
(and HEAD, which the axum `get` route also serves) on the
fetch-children-of-a-metadata-id path goes to the MetadataInterceptor, any
other method on that path receives 405 Method Not Allowed from the method
router, and every request whose path does not match the route is handled by
the Router fallback policy. -/
theorem router_dispatch_amended (req : Request) :
    (matchesCaptureRoute req.path = true → (req.method = "GET" ∨ req.method = "HEAD") →
      dispatch req = Dispatch.capture) ∧
    (matchesCaptureRoute req.path = true → req.method ≠ "GET" → req.method ≠ "HEAD" →
      dispatch req = Dispatch.methodNotAllowed) ∧
    (matchesCaptureRoute req.path = false → dispatch req = Dispatch.fallback) := by
  refine ⟨fun hp hm => ?_, fun hp hm1 hm2 => ?_, fun hp => ?_⟩
  · unfold dispatch
    rw [hp, if_pos rfl, if_pos hm]
  · unfold dispatch
    rw [hp, if_pos rfl, if_neg (by rintro (h | h) <;> [exact hm1 h; exact hm2 h])]
  · unfold dispatch
    rw [hp]
    simp

/-- Witness for the amended C6: a GET on the children path is captured, a
DELETE there is a 405, and a POST elsewhere falls back. -/
theorem router_dispatch_amended_witness :
    dispatch ⟨"GET", "/library/metadata/1/children", none, []⟩ = Dispatch.capture ∧
    dispatch ⟨"DELETE", "/library/metadata/1/children", none, []⟩ =
      Dispatch.methodNotAllowed ∧
    dispatch ⟨"POST", "/status", none, []⟩ = Dispatch.fallback :=
  ⟨(router_dispatch_amended _).1 (by decide) (Or.inl rfl),
   (router_dispatch_amended _).2.1 (by decide) (by decide) (by decide),
   (router_dispatch_amended _).2.2 (by decide)⟩

/-- C7: `add_token` inserts or refreshes the token with the current time and
then sweeps every entry older than the 15-minute TTL, so after any update
every retained entry has age at most the TTL as measured at that update;
in particular adding `t1`, waiting past the TTL, then adding `t2 ≠ t1`
leaves `t1` out of the cache and `t2` in it. -/
theorem token_cache_add_sweeps_ttl :
    (∀ (now : Nat) (tok : String) (m : List (String × Nat)),
      (addToken now tok m).find? (fun e => e.1 = tok) = some (tok, now) ∧
      ∀ e ∈ addToken now tok m, now - e.2 ≤ TOKEN_TTL_MINUTES * 60) ∧
    (∀ (t1 t2 : String) (n1 n2 : Nat) (m : List (String × Nat)), t1 ≠ t2 →
      n2 - n1 > TOKEN_TTL_MINUTES * 60 →
      containsToken (addToken n2 t2 (addToken n1 t1 m)) t1 = false ∧
      containsToken (addToken n2 t2 (addToken n1 t1 m)) t2 = true) := by
  constructor
  · intro now tok m
    constructor
    · unfold addToken tokenInsert
      rw [List.filter_cons_of_pos (by simp)]
      simp [List.find?_cons]
    · intro e he
      unfold addToken at he
      rw [List.mem_filter] at he
      have := he.2
      simp only [decide_eq_true_eq] at this
      omega
  · intro t1 t2 n1 n2 m hne hgt
    refine ⟨?_, containsToken_addToken_self n2 t2 _⟩
    have hnot : ¬ containsToken (addToken n2 t2 (addToken n1 t1 m)) t1 = true := by
      unfold containsToken addToken tokenInsert
      rw [List.any_eq_true]
      rintro ⟨e, he, hpe⟩
      simp only [decide_eq_true_eq] at hpe
      rw [List.mem_filter] at he
      obtain ⟨he, hp2⟩ := he
      rcases List.mem_cons.mp he with heq | he2
      · subst heq
        simp at hpe
        exact hne hpe.symm
      · rw [List.mem_filter] at he2
        obtain ⟨he2, -⟩ := he2
        rw [List.mem_filter] at he2
        obtain ⟨he2, hkept⟩ := he2
        rcases List.mem_cons.mp he2 with heq | hm
        · subst heq
          simp only [decide_eq_true_eq] at hp2
          omega
        · rw [List.mem_filter] at hm
          have := hm.2
          simp only [decide_eq_true_eq] at this
          exact this hpe
    exact Bool.eq_false_iff.mpr hnot

/-- Witness for C7: after `add "a"` at time 0 and `add "b"` at time 1000
(past the 900-second TTL), "a" is gone and "b" is present. -/
theorem token_cache_add_sweeps_ttl_witness :
    containsToken (addToken 1000 "b" (addToken 0 "a" [])) "a" = false ∧
    containsToken (addToken 1000 "b" (addToken 0 "a" [])) "b" = true :=
  token_cache_add_sweeps_ttl.2 "a" "b" 0 1000 [] (by decide) (by decide)

/-- C8: a capture-route request whose origin status is not 200 is streamed
straight through: no buffering (the body cap is irrelevant), no token
registration, no parse — the state is untouched and the origin response is
relayed as a stream. -/
theorem capture_non200_streams_unbuffered (now : Nat) (s : ProxyState) (req : Request)
    (resp : OriginResponse) (h : resp.status ≠ 200) :
    captureMetadata now s req resp =
      (s, CaptureResult.ok ⟨resp.status, resp.headers, resp.body, true⟩) := by
  unfold captureMetadata
  rw [if_neg h]

/-- Witness for C8: a 404 with a 2 MB body — over the cap — and a token on
the request is still streamed through unchanged with no state update. -/
theorem capture_non200_streams_unbuffered_witness :
    captureMetadata 0 ⟨[], [], "http://plex", "/data", "http://gw"⟩
      ⟨"GET", "/library/metadata/1/children", none, [("x-plex-token", "t")]⟩
      ⟨404, [], Body.raw [0], 2000000⟩ =
      (⟨[], [], "http://plex", "/data", "http://gw"⟩,
        CaptureResult.ok ⟨404, [], Body.raw [0], true⟩) :=
  capture_non200_streams_unbuffered 0 _ _ _ (by decide)

/-- C9: a request handled by the fallback leaves the proxy state — in
particular the token cache — unchanged: `contains` is a pure membership
read and never evicts, so any cached token answers true regardless of how
much time has passed since it was stored. -/
theorem fallback_contains_is_pure_read (now : Nat) (s : ProxyState) (req : Request)
    (resp : OriginResponse) (h : dispatch req = Dispatch.fallback) :
    (requestStep now s req resp).1 = s ∧
    ∀ tok ts, (tok, ts) ∈ s.seenTokens → containsToken s.seenTokens tok = true := by
  refine ⟨?_, fun tok ts hm => ?_⟩
  · unfold requestStep
    rw [h]
  · rw [containsToken, List.any_eq_true]
    exact ⟨(tok, ts), hm, by simp⟩

/-- Witness for C9: a fallback request at time 5000 against a token stored
at time 0 — far past the 900-second TTL — changes nothing and the token
still reads as present. -/
theorem fallback_contains_is_pure_read_witness :
    (requestStep 5000 ⟨[("a", 0)], [], "http://plex", "/data", "http://gw"⟩
      ⟨"GET", "/status", none, []⟩ ⟨200, [], Body.raw [], 0⟩).1 =
      ⟨[("a", 0)], [], "http://plex", "/data", "http://gw"⟩ ∧
    containsToken [("a", 0)] "a" = true := by
  have h := fallback_contains_is_pure_read 5000
    ⟨[("a", 0)], [], "http://plex", "/data", "http://gw"⟩
    ⟨"GET", "/status", none, []⟩ ⟨200, [], Body.raw [], 0⟩ (by decide)
  exact ⟨h.1, h.2 "a" 0 (by decide)⟩

/-- C10: on a 200 origin response the capture handler registers the token of
the request before buffering the body, so when the body exceeds the 1 MiB
cap the handler fails with a 502 while the token stays registered. -/
theorem capture_token_survives_body_cap_failure (now : Nat) (s : ProxyState)
    (req : Request) (resp : OriginResponse) (tok : String)
    (h1 : resp.status = 200)
    (h2 : getHeader req.headers "x-plex-token" = some tok)
    (h3 : resp.bodyLen > BODY_CAP) :
    captureMetadata now s req resp =
      ({ s with seenTokens := addToken now tok s.seenTokens },
        CaptureResult.err 502 "Failed to read response body") ∧
    containsToken (captureMetadata now s req resp).1.seenTokens tok = true := by
  have heq : captureMetadata now s req resp =
      ({ s with seenTokens := addToken now tok s.seenTokens },
        CaptureResult.err 502 "Failed to read response body") := by
    unfold captureMetadata
    rw [if_pos h1, h2, if_neg (by omega)]
  refine ⟨heq, ?_⟩
  rw [heq]
  exact containsToken_addToken_self now tok s.seenTokens

/-- Witness for C10: a 200 whose body is one byte over the cap returns the
502 error and the token "t" is in the cache afterwards. -/
theorem capture_token_survives_body_cap_failure_witness :
    (captureMetadata 0 ⟨[], [], "http://plex", "/data", "http://gw"⟩
      ⟨"GET", "/library/metadata/1/children", none, [("x-plex-token", "t")]⟩
      ⟨200, [], Body.raw [], 1048577⟩).2 =
      CaptureResult.err 502 "Failed to read response body" ∧
    containsToken (captureMetadata 0 ⟨[], [], "http://plex", "/data", "http://gw"⟩
      ⟨"GET", "/library/metadata/1/children", none, [("x-plex-token", "t")]⟩
      ⟨200, [], Body.raw [], 1048577⟩).1.seenTokens "t" = true := by
  have h := capture_token_survives_body_cap_failure 0
    ⟨[], [], "http://plex", "/data", "http://gw"⟩
    ⟨"GET", "/library/metadata/1/children", none, [("x-plex-token", "t")]⟩
    ⟨200, [], Body.raw [], 1048577⟩ "t" rfl (by decide) (by decide)
  exact ⟨by rw [h.1], h.2⟩

end PlexProxy